import Mathlib

/-!
Verification development for the Grab.js HTTP client (src/Grab.js).

The JavaScript source is shallowly embedded: each JS class becomes a Lean
structure with explicit state passing, JS Maps become insertion-ordered
association lists (matching JS Map iteration order), times are naturals
(milliseconds, Date.now()), and fallible operations return Except/Option.
Host collaborators (fetch, AbortController, URLSearchParams percent-encoding,
body decoding) are modelled as parameters or elided where no verified claim
depends on them; each elision is noted at the definition it concerns.
-/

/-! ## Association-list primitives (JS Map / plain-object semantics)

A JS Map iterates in insertion order; Map.set on an existing key updates the
value in place (keeping its position) while Map.set on a fresh key appends;
Map.delete removes the entry. We model a Map as a List of key-value pairs
without duplicate keys and give the three primitives accordingly. -/

def assocGet {β : Type} (l : List (String × β)) (k : String) : Option β :=
  match l with
  | [] => none
  | (k0, v0) :: rest => if k0 = k then some v0 else assocGet rest k

def containsKey {β : Type} (l : List (String × β)) (k : String) : Bool :=
  (assocGet l k).isSome

def eraseKey {β : Type} (l : List (String × β)) (k : String) : List (String × β) :=
  l.filter (fun kv => kv.fst ≠ k)

/-- Map.set semantics: replace in place when the key is present, append when fresh. -/
def mapSet {β : Type} (l : List (String × β)) (k : String) (v : β) : List (String × β) :=
  if containsKey l k then l.map (fun kv => if kv.fst = k then (k, v) else kv)
  else l ++ [(k, v)]

/-- ASCII lowercasing of a string, written over the character list so that it
reduces inside the kernel (String.toLower does not); agrees with JS
toLowerCase() on the ASCII header names used here. -/
def lowerString (s : String) : String :=
  String.mk (s.data.map Char.toLower)

/-- Embeds findHeader(headers, name): case-insensitive scan over the header
entries, returning the first value whose key lowercases to the lowercased name. -/
def findHeader (headers : List (String × String)) (name : String) : Option String :=
  match headers with
  | [] => none
  | (k, v) :: rest => if lowerString k = lowerString name then some v else findHeader rest name

/-- JSON.stringify for a string-keyed, string-valued plain object, in key
insertion order. Escaping of special characters inside keys and values is not
modelled; all inputs used in theorems below are escape-free. -/
def jsonStringifyStrObj (l : List (String × String)) : String :=
  "\x7b" ++ String.intercalate "," (l.map (fun kv => "\"" ++ kv.fst ++ "\":\"" ++ kv.snd ++ "\"")) ++ "\x7d"

/-- Insertion step for the string sort used by Object.keys(headers).sort(). -/
def insertSorted (s : String) : List String → List String
  | [] => [s]
  | t :: ts => if s ≤ t then s :: t :: ts else t :: insertSorted s ts

/-- Array.prototype.sort for strings (default comparator: code-unit order). -/
def sortStrings (l : List String) : List String :=
  l.foldr insertSorted []

/-! ## Response descriptors and the error taxonomy -/

/-- The response descriptor built by Grab.buildResponse: success flag, status,
status text, header bag, final URL, decoded body (None models the JS null body
of a 304), the etag field, and the fromCache marker added by cache hits.
The decoded body is modelled as an optional string: parseResponse's
content-type dispatch decodes the transport body, and no verified claim
depends on the decoding itself. -/
structure Resp where
  ok : Bool
  status : Int
  statusText : String
  headers : List (String × String)
  url : String
  data : Option String
  etag : Option String
  fromCache : Bool
deriving DecidableEq, Repr

/-- The error taxonomy of src/Grab.js: HttpError (status, url), NetworkError
(message, url), TimeoutError (url, timeout ms), and plain JS Error values
(genericError) such as the size-limit and security errors. -/
inductive GrabError where
  | httpError (message : String) (status : Int) (url : String)
  | networkError (message : String) (url : String)
  | timeoutError (url : String) (timeoutMs : Nat)
  | genericError (message : String)
deriving DecidableEq, Repr

/-- The raw response handle returned by the transport (fetch): the fields the
client reads, with the body already decoded to an optional string. -/
structure RawResponse where
  ok : Bool
  status : Int
  statusText : String
  headers : List (String × String)
  url : String
  body : Option String
deriving DecidableEq, Repr

/-! ## HttpCache -/

/-- A cache entry: descriptor, absolute expiry, optional ETag. -/
structure CacheEntry where
  data : Resp
  expires : Nat
  etag : Option String
deriving DecidableEq, Repr

/-- State of the HttpCache class: the entry map, ttl, maxSize, the configured
auth-relevant header names, the ETag index, the auth-extraction memo
(_authCache, header-name-set string to auth string), and the in-flight map
(pending), with in-flight promises identified by numeric ids. -/
structure HttpCache where
  cache : List (String × CacheEntry)
  ttl : Nat
  maxSize : Nat
  authHeaders : List String
  etags : List (String × String)
  authCache : List (String × String)
  pending : List (String × Nat)
deriving DecidableEq, Repr

/-- AUTH_HEADERS constant. -/
def AUTH_HEADERS : List String := ["authorization", "x-api-key", "cookie"]

/-- CACHE_SEP constant (U+0000). -/
def CACHE_SEP : String := "\x00"

/-- A fresh HttpCache with the given options (constructor). -/
def HttpCache.init (ttl maxSize : Nat) (authHeaders : List String) : HttpCache :=
  { cache := [], ttl := ttl, maxSize := maxSize, authHeaders := authHeaders
  , etags := [], authCache := [], pending := [] }

/-- Embeds HttpCache.key. The method reads and writes the _authCache memo, so
it returns the fingerprint together with the updated cache state. Faithful to
the source: the memo is keyed by the sorted, comma-joined header NAMES
(Object.keys(headers).sort().join(',')); on a miss the auth string is computed
from the configured auth header names via findHeader, skipping falsy (empty)
values, FIFO-evicting one memo entry when the memo holds more than 100. -/
def HttpCache.key (c : HttpCache) (method url : String)
    (params headers : List (String × String)) : String × HttpCache :=
  let paramsPart := if params.length ≠ 0 then jsonStringifyStrObj params else ""
  let headerKeys := String.intercalate "," (sortStrings (headers.map Prod.fst))
  match assocGet c.authCache headerKeys with
  | some authStr =>
      (method ++ CACHE_SEP ++ url ++ CACHE_SEP ++ paramsPart ++ CACHE_SEP ++ authStr, c)
  | none =>
      let authPairs := c.authHeaders.filterMap (fun name =>
        match findHeader headers name with
        | some v => if v = "" then none else some (name, v)
        | none => none)
      let authStr := if authPairs.length ≠ 0 then jsonStringifyStrObj authPairs else ""
      let memo := if c.authCache.length > 100 then c.authCache.drop 1 else c.authCache
      let c' := { c with authCache := mapSet memo headerKeys authStr }
      (method ++ CACHE_SEP ++ url ++ CACHE_SEP ++ paramsPart ++ CACHE_SEP ++ authStr, c')

/-- Effective TTL of HttpCache.set: customTtl || this.ttl (0 and null both
fall back to the instance ttl). -/
def HttpCache.effTtl (c : HttpCache) (customTtl : Option Nat) : Nat :=
  match customTtl with
  | some t => if t = 0 then c.ttl else t
  | none => c.ttl

/-- Embeds HttpCache.set: LRU eviction of the oldest entry when at capacity
and the key is new, then insertion of the entry with expiry now + effTtl, and
an ETag-index update when an etag is given. -/
def HttpCache.set (c : HttpCache) (key : String) (data : Resp)
    (customTtl : Option Nat) (etag : Option String) (now : Nat) : HttpCache :=
  let c :=
    if c.cache.length ≥ c.maxSize ∧ ¬ containsKey c.cache key then
      match c.cache with
      | [] => c
      | (k0, _) :: _ => { c with cache := eraseKey c.cache k0, etags := eraseKey c.etags k0 }
    else c
  let entry : CacheEntry := { data := data, expires := now + c.effTtl customTtl, etag := etag }
  let c := { c with cache := mapSet c.cache key entry }
  match etag with
  | some e => { c with etags := mapSet c.etags key e }
  | none => c

/-- Embeds HttpCache.get: miss gives null; an entry past expiry is deleted
(entry and ETag) and null returned; a live hit is moved to the MRU position
(delete then re-insert) and returned with fromCache set. -/
def HttpCache.get (c : HttpCache) (key : String) (now : Nat) : Option Resp × HttpCache :=
  match assocGet c.cache key with
  | none => (none, c)
  | some entry =>
      if now > entry.expires then
        (none, { c with cache := eraseKey c.cache key, etags := eraseKey c.etags key })
      else
        let c := { c with cache := eraseKey c.cache key ++ [(key, entry)] }
        (some { entry.data with fromCache := true }, c)

/-- Embeds HttpCache.refresh: extend the expiry of an existing entry to
now + ttl; no-op when absent. -/
def HttpCache.refresh (c : HttpCache) (key : String) (now : Nat) : HttpCache :=
  match assocGet c.cache key with
  | none => c
  | some entry =>
      { c with cache := mapSet c.cache key { entry with expires := now + c.ttl } }

/-- Embeds HttpCache.etag: lookup in the ETag index. -/
def HttpCache.etagOf (c : HttpCache) (key : String) : Option String :=
  assocGet c.etags key

/-! ## CircuitBreaker

CircuitBreaker.call(fn) is async with a single suspension point, the await of
fn(). We split it at that point: callBegin performs the open/half-open gating
that runs synchronously before the thunk (returning either a rejection or the
decision to dispatch, with halfOpenRequestSent already recorded), and
callSettle applies onSuccess/onFailure when the dispatched thunk settles.
callOnce composes the two for a call that runs to completion with no
interleaved breaker traffic, which is the regime the specified state machine
describes. -/

inductive CBState where
  | closed
  | opened
  | halfOpen
deriving DecidableEq, Repr

structure CircuitBreaker where
  failureThreshold : Nat
  resetTimeout : Nat
  fallbackConfigured : Bool
  state : CBState
  failureCount : Nat
  lastFailureTime : Option Nat
  successCount : Nat
  halfOpenRequestSent : Bool
deriving DecidableEq, Repr

/-- The constructor state: closed, zero counters, no recorded failure. -/
def CircuitBreaker.init (threshold resetTimeout : Nat) (fallbackConfigured : Bool) : CircuitBreaker :=
  { failureThreshold := threshold, resetTimeout := resetTimeout
  , fallbackConfigured := fallbackConfigured, state := .closed, failureCount := 0
  , lastFailureTime := none, successCount := 0, halfOpenRequestSent := false }

/-- Embeds shouldReset: Date.now() - this.lastFailureTime > this.resetTimeout,
with the JS coercion of a null lastFailureTime to 0 kept (computed in Int
because the JS subtraction may be negative). -/
def CircuitBreaker.shouldReset (cb : CircuitBreaker) (now : Nat) : Bool :=
  (now : Int) - (match cb.lastFailureTime with | some t => (t : Int) | none => 0) > (cb.resetTimeout : Int)

/-- Embeds onSuccess: reset the failure count, bump successes, and close the
breaker when half-open. -/
def CircuitBreaker.onSuccess (cb : CircuitBreaker) : CircuitBreaker :=
  let cb := { cb with failureCount := 0, successCount := cb.successCount + 1 }
  if cb.state = .halfOpen then { cb with state := .closed, halfOpenRequestSent := false } else cb

/-- Embeds onFailure: bump the failure count, record the failure time, and
open the breaker when the count reaches the threshold. -/
def CircuitBreaker.onFailure (cb : CircuitBreaker) (now : Nat) : CircuitBreaker :=
  let cb := { cb with failureCount := cb.failureCount + 1, lastFailureTime := some now }
  if cb.failureCount ≥ cb.failureThreshold then { cb with state := .opened } else cb

/-- What callBegin decided: reject without running the thunk, or dispatch it. -/
inductive BeginAction where
  | reject
  | dispatch
deriving DecidableEq, Repr

/-- The gating prefix of CircuitBreaker.call, before the thunk runs: an open
breaker either transitions to half-open (when the reset timeout has elapsed)
or rejects; a half-open breaker rejects when a probe was already sent and
otherwise marks the probe sent and dispatches. -/
def CircuitBreaker.callBegin (cb : CircuitBreaker) (now : Nat) : CircuitBreaker × BeginAction :=
  if cb.state = .opened ∧ ¬ cb.shouldReset now then (cb, .reject)
  else
    let cb := if cb.state = .opened then { cb with state := .halfOpen, halfOpenRequestSent := false } else cb
    if cb.state = .halfOpen then
      if cb.halfOpenRequestSent then (cb, .reject)
      else ({ cb with halfOpenRequestSent := true }, .dispatch)
    else (cb, .dispatch)

/-- The settling suffix of CircuitBreaker.call: onSuccess when the thunk
resolved, onFailure when it rejected (the error is rethrown by the source). -/
def CircuitBreaker.callSettle (cb : CircuitBreaker) (ok : Bool) (now : Nat) : CircuitBreaker :=
  if ok then cb.onSuccess else cb.onFailure now

/-- One complete, uninterleaved call: gate, then settle if dispatched. -/
def CircuitBreaker.callOnce (cb : CircuitBreaker) (now : Nat) (ok : Bool) : CircuitBreaker :=
  match cb.callBegin now with
  | (cb', .reject) => cb'
  | (cb', .dispatch) => cb'.callSettle ok now

/-- What a rejected call surfaces to the caller. serviceUnavailableError is
the dedicated error of the prototype method fallback() ("Circuit breaker is
OPEN - service temporarily unavailable"); typeErrorNullCall is the TypeError a
JS engine raises when a null value is invoked as a function. -/
inductive RejectOutcome where
  | fallbackValue
  | typeErrorNullCall
  | serviceUnavailableError
deriving DecidableEq, Repr

/-- What `return this.fallback()` in CircuitBreaker.call evaluates to. The
constructor assigns `this.fallback = options.fallback` (a function or null),
an own property that shadows the prototype method named fallback; so when no
fallback is configured the call invokes null and raises a TypeError, and the
prototype method holding the dedicated service-unavailable Error is
unreachable. -/
def CircuitBreaker.rejectOutcome (cb : CircuitBreaker) : RejectOutcome :=
  if cb.fallbackConfigured then .fallbackValue else .typeErrorNullCall

/-- Sequential reachability of breaker states from the constructor state by
complete calls (arbitrary call times and thunk outcomes). -/
inductive CBReachable (threshold resetTimeout : Nat) (fb : Bool) : CircuitBreaker → Prop where
  | init : CBReachable threshold resetTimeout fb (CircuitBreaker.init threshold resetTimeout fb)
  | step (s : CircuitBreaker) (now : Nat) (ok : Bool) :
      CBReachable threshold resetTimeout fb s →
      CBReachable threshold resetTimeout fb (s.callOnce now ok)

/-! ## Error interceptors and the retry loop -/

/-- What one error interceptor does with the current error: return a value
(some v), return undefined (none), or throw. -/
inductive InterceptorResult where
  | ret (v : Option GrabError)
  | thrown (e : GrabError)

/-- One iteration of the callErrorInterceptors loop body: a thrown value
becomes the current error; a returned non-undefined value replaces it; a
returned undefined leaves it unchanged. -/
def interceptorStep (current : GrabError) (r : InterceptorResult) : GrabError :=
  match r with
  | .thrown err => err
  | .ret (some v) => v
  | .ret none => current

/-- Embeds callErrorInterceptors: fold the registered interceptors, in
registration order, over the current error. -/
def callErrorInterceptors (fns : List (GrabError → InterceptorResult)) (e : GrabError) : GrabError :=
  match fns with
  | [] => e
  | fn :: rest => callErrorInterceptors rest (interceptorStep e (fn e))

/-- Outcome of executeWithRetry: a response, a thrown error, or the throw of
the undefined lastError reached when the loop body never ran (attempts = 0). -/
inductive RetryOutcome where
  | success (r : Resp)
  | thrown (e : GrabError)
  | thrownUndefined
deriving DecidableEq, Repr

/-- Embeds the loop of executeWithRetry. dispatch gives the outcome of
executeHttpRequest on each attempt; cond is this.retryCondition; fns are the
error interceptors applied before the final throw. remaining counts the loop
iterations still to run, the current one included, so the source guard
attempt === this.retryAttempts is remaining = 0; lastError carries the source
variable of the same name. The second component counts dispatches. The
inter-attempt sleep and the Retry-After override only choose a delay and are
not modelled (no verified claim concerns delays). -/
def retryAux (dispatch : Nat → Except GrabError Resp) (cond : GrabError → Bool)
    (fns : List (GrabError → InterceptorResult)) :
    Nat → Nat → Option GrabError → RetryOutcome × Nat
  | _, 0, lastError =>
      (match lastError with
       | some e => (.thrown e, 0)
       | none => (.thrownUndefined, 0))
  | attempt, remaining + 1, _ =>
      match dispatch attempt with
      | .ok r => (.success r, 1)
      | .error e =>
          let isFinalAttempt := remaining = 0
          let shouldRetry := cond e
          if isFinalAttempt ∨ ¬ shouldRetry then
            (.thrown (callErrorInterceptors fns e), 1)
          else
            let (o, n) := retryAux dispatch cond fns (attempt + 1) remaining (some e)
            (o, n + 1)

/-- Embeds executeWithRetry: run the loop from attempt 1 with retryAttempts
iterations and an undefined lastError. -/
def executeWithRetry (dispatch : Nat → Except GrabError Resp) (cond : GrabError → Bool)
    (fns : List (GrabError → InterceptorResult)) (retryAttempts : Nat) : RetryOutcome × Nat :=
  retryAux dispatch cond fns 1 retryAttempts none

/-- Embeds Grab.defaultRetryCondition: network and timeout errors retry;
HttpErrors retry when status >= 500 or status is 408 or 429; anything else
does not. -/
def defaultRetryCondition : GrabError → Bool
  | .networkError _ _ => true
  | .timeoutError _ _ => true
  | .httpError _ status _ => decide ((500 : Int) ≤ status) || decide (status = 408) || decide (status = 429)
  | .genericError _ => false

/-- Embeds the attempts field of normalizeRetry for a numeric input:
r.attempts >= 0 ? clamp(toInt(r.attempts, 3), 0, 10) : 3 (toInt is the
identity on integral numbers). -/
def normalizeRetryAttempts (a : Int) : Nat :=
  if 0 ≤ a then (max 0 (min 10 a)).toNat else 3

/-! ## URL building, response building, request execution -/

/-- A request descriptor, restricted to the fields the verified claims read.
The caller-supplied cancellation signal is modelled at the transport layer
(TransportResult below), since its only observable effect in the source is an
AbortError surfacing from fetch. -/
structure RequestConfig where
  url : String
  params : List (String × String)
  headers : List (String × String)
  timeout : Option Nat
deriving DecidableEq, Repr

/-- Character-list prefix test (String.startsWith is not kernel-reducible). -/
def isPrefixOfChars : List Char → List Char → Bool
  | [], _ => true
  | _ :: _, [] => false
  | p :: ps, c :: cs => if p = c then isPrefixOfChars ps cs else false

/-- startsWith over the character lists, matching String.startsWith. -/
def strStartsWith (s p : String) : Bool :=
  isPrefixOfChars p.data s.data

/-- Embeds Grab.resolveUrl: absolute http(s) URLs pass through,
protocol-relative URLs raise a security Error, relative URLs join the base
URL with exactly one slash (url.replace of one leading slash is the one-char
drop on the character list). -/
def resolveUrl (baseUrl url : String) : Except GrabError String :=
  if strStartsWith url "http://" || strStartsWith url "https://" then .ok url
  else if strStartsWith url "//" then .error (.genericError "Protocol-relative URLs not allowed for security")
  else .ok (if baseUrl ≠ "" then baseUrl ++ "/" ++ (if strStartsWith url "/" then String.mk (url.data.drop 1) else url) else url)

/-- Embeds Grab.buildUrl: no params leaves the URL unchanged; otherwise the
params are serialized pairwise in insertion order and appended after ? or &.
URLSearchParams percent-encoding of the host is not modelled (no verified
claim depends on it); null and undefined params cannot arise because the
model's param values are strings. -/
def buildUrl (url : String) (params : List (String × String)) : String :=
  if params.length = 0 then url
  else
    let qs := String.intercalate "&" (params.map (fun kv => kv.fst ++ "=" ++ kv.snd))
    let sep := if (url.splitOn "?").length > 1 then "&" else "?"
    url ++ sep ++ qs

/-- Embeds Grab.buildResponse: a 304 becomes a synthetic ok descriptor with a
null body and no etag field; any other non-ok status raises HttpError carrying
the status and the original URL; an ok response carries the decoded body and
the response's etag header. -/
def buildResponse (r : RawResponse) (originalUrl : String) : Except GrabError Resp :=
  if r.status = 304 then
    .ok { ok := true, status := 304, statusText := "Not Modified", headers := r.headers
        , url := r.url, data := none, etag := none, fromCache := false }
  else if ¬ r.ok then
    .error (.httpError ("HTTP " ++ toString r.status ++ ": " ++ r.statusText) r.status originalUrl)
  else
    .ok { ok := r.ok, status := r.status, statusText := r.statusText, headers := r.headers
        , url := r.url, data := r.body, etag := findHeader r.headers "etag", fromCache := false }

/-- Effective timeout of executeHttpRequest: config.timeout || this.timeout
(0 and undefined both fall back to the instance timeout). -/
def effectiveTimeout (cfg : RequestConfig) (instanceTimeout : Nat) : Nat :=
  match cfg.timeout with
  | some t => if t = 0 then instanceTimeout else t
  | none => instanceTimeout

/-- How the awaited fetch settles. abortError covers every firing of the
request's AbortController: the internal timeout timer, a caller-supplied
signal firing mid-flight, and a caller signal already aborted at entry (the
source aborts the controller immediately in that case); per the host contract
fetch then rejects with an AbortError. failure is any other rejection. -/
inductive TransportResult where
  | response (r : RawResponse)
  | abortError
  | failure (message : String)
deriving DecidableEq, Repr

/-- Embeds Grab.executeHttpRequest: build the final URL, compute the
effective timeout, and classify the awaited outcome — an AbortError becomes
TimeoutError(url, timeout), an HttpError from buildResponse is rethrown
unchanged, and any other rejection becomes NetworkError(message, url). The
timeout timer cleanup has no observable effect on the returned value and is
not modelled. -/
def executeHttpRequest (baseUrl : String) (instanceTimeout : Nat)
    (cfg : RequestConfig) (tr : TransportResult) : Except GrabError Resp :=
  match resolveUrl baseUrl cfg.url with
  | .error e => .error e
  | .ok resolved =>
      let url := buildUrl resolved cfg.params
      let timeout := effectiveTimeout cfg instanceTimeout
      match tr with
      | .abortError => .error (.timeoutError url timeout)
      | .failure msg => .error (.networkError msg url)
      | .response r => buildResponse r url

/-! ## The cacheable GET pipeline

cacheableRequest runs synchronously from entry to the registration of the
in-flight promise (track): the pending lookup, the cache lookup, the ETag
header addition, the breaker call (whose body starts executing up to its
first await), the .then attachment, and track itself all happen in one
JS turn, so concurrent callers arrive strictly before or strictly after this
whole prefix. cacheableStart embeds that synchronous prefix; cacheableSettle
embeds the .then continuation (and the pending removal attached by track)
that runs when the dispatched request settles successfully. -/

/-- Pipeline state: the shared HttpCache (with its pending map), the number of
dispatched pipelines, and a counter supplying fresh promise ids. -/
structure PipelineState where
  cache : HttpCache
  dispatchCount : Nat
  nextPromiseId : Nat
deriving DecidableEq, Repr

/-- How the synchronous prefix of cacheableRequest returned: by joining the
in-flight promise registered under the fingerprint, by a fresh cache hit, or
by dispatching a new request whose promise was registered under the
fingerprint. -/
inductive StartResult where
  | joined (pid : Nat)
  | cachedHit (r : Resp)
  | dispatched (pid : Nat)
deriving DecidableEq, Repr

/-- The synchronous prefix of cacheableRequest for fingerprint key: return the
pending in-flight promise if one is registered (touching neither the cache
entries, the breaker, the retry loop, nor the transport); otherwise consult
the cache; otherwise register a fresh promise id under key and dispatch
(breaker gate, retry loop, transport), counting one pipeline dispatch. The
If-None-Match header addition only alters the dispatched request's headers and
is elided here; the dispatched request's settlement is cacheableSettle. -/
def cacheableStart (g : PipelineState) (key : String) (now : Nat) : StartResult × PipelineState :=
  match assocGet g.cache.pending key with
  | some pid => (.joined pid, g)
  | none =>
      let (cached, c1) := g.cache.get key now
      match cached with
      | some r => (.cachedHit r, { g with cache := c1 })
      | none =>
          let pid := g.nextPromiseId
          let c2 := { c1 with pending := c1.pending ++ [(key, pid)] }
          (.dispatched pid, { cache := c2, dispatchCount := g.dispatchCount + 1
                            , nextPromiseId := pid + 1 })

/-- k arrivals of GET requests with the same fingerprint, all within the
window where the first dispatch has not yet settled (so no time passes and no
settlement interleaves); returns the promise id each caller ended up awaiting
(cache hits do not occur under the preconditions of the dedup theorem). -/
def arrivals (g : PipelineState) (key : String) (now : Nat) : Nat → List Nat × PipelineState
  | 0 => ([], g)
  | k + 1 =>
      let (res, g') := cacheableStart g key now
      let pid := match res with
        | .joined p => p
        | .dispatched p => p
        | .cachedHit _ => 0
      let (rest, g'') := arrivals g' key now k
      (pid :: rest, g'')

/-- The .then continuation of the dispatched request in cacheableRequest, for
a successfully built response, together with the pending-map removal that
track attached via promise.finally: a 304 refreshes the entry and returns the
refreshed cached descriptor when one exists; otherwise (including a 304 whose
entry has vanished) an ok response is stored under the fingerprint with the
etag read from its headers, and the response itself is returned. -/
def cacheableSettle (c : HttpCache) (key : String) (resp : Resp) (now : Nat) : Resp × HttpCache :=
  let refreshed : Option Resp × HttpCache :=
    if resp.status = 304 then
      let c1 := c.refresh key now
      c1.get key now
    else (none, c)
  match refreshed with
  | (some r, c1) => (r, { c1 with pending := eraseKey c1.pending key })
  | (none, c1) =>
      let c2 := if resp.ok then c1.set key resp none (findHeader resp.headers "etag") now else c1
      (resp, { c2 with pending := eraseKey c2.pending key })

/-- A sequence of complete breaker calls whose thunks all fail, at the given
times. -/
def failCalls (s : CircuitBreaker) (ts : List Nat) : CircuitBreaker :=
  ts.foldl (fun s t => s.callOnce t false) s

/-- A retry outcome that is a throw (a typed error or the undefined lastError). -/
def RetryOutcome.isThrown : RetryOutcome → Bool
  | .success _ => false
  | .thrown _ => true
  | .thrownUndefined => true

/-! ## Association-list lemmas -/

theorem assocGet_cons {β : Type} (k0 : String) (v0 : β) (rest : List (String × β)) (k : String) :
    assocGet ((k0, v0) :: rest) k = if k0 = k then some v0 else assocGet rest k := rfl

theorem assocGet_append_of_none {β : Type} (l l2 : List (String × β)) (k : String)
    (h : assocGet l k = none) : assocGet (l ++ l2) k = assocGet l2 k := by
  induction l with
  | nil => rfl
  | cons hd tl ih =>
      obtain ⟨k0, v0⟩ := hd
      by_cases hk : k0 = k
      · rw [assocGet_cons, if_pos hk] at h
        exact absurd h (by simp)
      · rw [assocGet_cons, if_neg hk] at h
        rw [List.cons_append, assocGet_cons, if_neg hk]
        exact ih h

theorem assocGet_eraseKey_self {β : Type} (l : List (String × β)) (k : String) :
    assocGet (eraseKey l k) k = none := by
  induction l with
  | nil => simp [eraseKey, assocGet]
  | cons hd tl ih =>
      obtain ⟨k0, v0⟩ := hd
      by_cases hk : k0 = k
      · simpa [eraseKey, hk] using ih
      · simpa [eraseKey, assocGet, hk] using ih

theorem assocGet_map_replace {β : Type} (k : String) (v : β) :
    ∀ l : List (String × β), containsKey l k = true →
      assocGet (l.map (fun kv => if kv.fst = k then (k, v) else kv)) k = some v := by
  intro l
  induction l with
  | nil => intro hc; simp [containsKey, assocGet] at hc
  | cons hd tl ih =>
      intro hc
      obtain ⟨k0, v0⟩ := hd
      rw [List.map_cons]
      by_cases hk : k0 = k
      · have hhd : (if (k0, v0).fst = k then (k, v) else (k0, v0)) = (k, v) := if_pos hk
        rw [hhd, assocGet_cons, if_pos rfl]
      · have hhd : (if (k0, v0).fst = k then (k, v) else (k0, v0)) = (k0, v0) := if_neg hk
        rw [hhd, assocGet_cons, if_neg hk]
        apply ih
        simp only [containsKey] at hc ⊢
        rwa [assocGet_cons, if_neg hk] at hc

theorem assocGet_mapSet_self {β : Type} (l : List (String × β)) (k : String) (v : β) :
    assocGet (mapSet l k v) k = some v := by
  unfold mapSet
  by_cases hc : containsKey l k
  · simp only [hc, if_true]
    exact assocGet_map_replace k v l hc
  · have hnone : assocGet l k = none := by
      cases h : assocGet l k with
      | none => rfl
      | some w => exact absurd (by simp [containsKey, h]) hc
    have hcf : containsKey l k = false := by simp [containsKey, hnone]
    simp only [hcf, Bool.false_eq_true, if_false]
    rw [assocGet_append_of_none l _ k hnone]
    simp [assocGet]

/-! ## HttpCache operation lemmas -/

theorem refresh_absent (c : HttpCache) (key : String) (now : Nat)
    (h : assocGet c.cache key = none) : c.refresh key now = c := by
  unfold HttpCache.refresh
  rw [h]

theorem get_absent (c : HttpCache) (key : String) (now : Nat)
    (h : assocGet c.cache key = none) : c.get key now = (none, c) := by
  unfold HttpCache.get
  rw [h]

theorem set_lookup (c : HttpCache) (key : String) (v : Resp) (ct : Option Nat)
    (et : Option String) (now : Nat) :
    assocGet ((c.set key v ct et now).cache) key
      = some { data := v, expires := now + c.effTtl ct, etag := et } := by
  unfold HttpCache.set
  cases et with
  | none =>
      split
      · split
        · exact assocGet_mapSet_self _ _ _
        · exact assocGet_mapSet_self _ _ _
      · exact assocGet_mapSet_self _ _ _
  | some e =>
      split
      · split
        · exact assocGet_mapSet_self _ _ _
        · exact assocGet_mapSet_self _ _ _
      · exact assocGet_mapSet_self _ _ _

/-! ## Claim theorems -/

/-- C5. After set(key, v), get(key) within the recorded expiry returns a
descriptor equal to v except for its fromCache flag, which is true (so its
data equals v.data); once the current time is past the expiry, get(key)
returns null and evicts the entry; and, in any cache state, a returned hit is
backed by a stored entry whose expiry has not passed, so an expired entry is
never returned. -/
theorem httpCache_set_then_get (c : HttpCache) (key : String) (v : Resp) (ct : Option Nat)
    (et : Option String) (nowSet nowGet : Nat) :
    (nowGet ≤ nowSet + c.effTtl ct →
      ((c.set key v ct et nowSet).get key nowGet).1 = some { v with fromCache := true })
  ∧ (nowSet + c.effTtl ct < nowGet →
      ((c.set key v ct et nowSet).get key nowGet).1 = none
      ∧ assocGet (((c.set key v ct et nowSet).get key nowGet).2).cache key = none)
  ∧ (∀ (c0 : HttpCache) (r : Resp), (c0.get key nowGet).1 = some r →
      ∃ entry, assocGet c0.cache key = some entry ∧ nowGet ≤ entry.expires
        ∧ r = { entry.data with fromCache := true }) := by
  have hl := set_lookup c key v ct et nowSet
  refine ⟨?_, ?_, ?_⟩
  · intro hle
    unfold HttpCache.get
    rw [hl]
    have hnot : ¬ nowGet > nowSet + c.effTtl ct := by omega
    simp [hnot]
  · intro hgt
    unfold HttpCache.get
    rw [hl]
    simp only [gt_iff_lt, hgt, if_true]
    exact ⟨trivial, assocGet_eraseKey_self _ _⟩
  · intro c0 r hr
    unfold HttpCache.get at hr
    cases hent : assocGet c0.cache key with
    | none => rw [hent] at hr; simp at hr
    | some entry =>
        rw [hent] at hr
        by_cases hexp : nowGet > entry.expires
        · simp [hexp] at hr
        · simp only [hexp, if_false, if_neg hexp] at hr
          refine ⟨entry, rfl, by omega, ?_⟩
          simp only [Option.some_inj] at hr
          exact hr.symm

/-- Witness for C5 at a concrete instance: a fresh default cache, one set at
time 1000 with the default ttl, read back at time 2000. -/
theorem httpCache_set_then_get_witness :
    (((HttpCache.init 300000 100 AUTH_HEADERS).set "k"
        { ok := true, status := 200, statusText := "OK", headers := [], url := "u"
        , data := some "body", etag := none, fromCache := false } none none 1000).get "k" 2000).1
      = some { ok := true, status := 200, statusText := "OK", headers := [], url := "u"
             , data := some "body", etag := none, fromCache := true } := by
  have h := (httpCache_set_then_get (HttpCache.init 300000 100 AUTH_HEADERS) "k"
    { ok := true, status := 200, statusText := "OK", headers := [], url := "u"
    , data := some "body", etag := none, fromCache := false } none none 1000 2000).1
  exact h (by decide)

/-- C1. On a single HttpCache instance, two key() calls whose header maps
differ only in the value of the authorization header yield the SAME
fingerprint: the second call hits the _authCache memo, which is keyed only by
the sorted header names, and reuses the first caller's auth string. On fresh
(memo-free) instances the two fingerprints do differ, which isolates the memo
as the cause. This contradicts the claimed invariant (and the method's own
stated purpose of preventing cross-credential data leakage), so the claim
stands and the code is at fault. -/
theorem authKey_memo_collision :
    (((HttpCache.init 300000 100 AUTH_HEADERS).key "GET" "/d" []
        [("authorization", "Bearer A")]).2.key "GET" "/d" []
        [("authorization", "Bearer B")]).1
      = ((HttpCache.init 300000 100 AUTH_HEADERS).key "GET" "/d" []
          [("authorization", "Bearer A")]).1
  ∧ ((HttpCache.init 300000 100 AUTH_HEADERS).key "GET" "/d" []
        [("authorization", "Bearer B")]).1
      ≠ ((HttpCache.init 300000 100 AUTH_HEADERS).key "GET" "/d" []
          [("authorization", "Bearer A")]).1 := by
  exact ⟨by decide, by decide⟩

/-- C2. A call gated off by the breaker (open with the reset timeout not
elapsed, or half-open with the probe already in flight) is rejected without
running the thunk; but with no fallback configured the rejection evaluates
this.fallback() where this.fallback is the null own property that shadows the
prototype method, so a TypeError from calling null surfaces instead of the
dedicated service-unavailable error (which is unreachable). Evaluated here at
the failing inputs: an open breaker at threshold 5 with last failure at 1000
and reset timeout 60000, called at 1500, and a half-open breaker with a probe
in flight; with a fallback configured the rejection does return the fallback
value. -/
theorem breaker_reject_outcome :
    (CircuitBreaker.callBegin
        { failureThreshold := 5, resetTimeout := 60000, fallbackConfigured := false
        , state := .opened, failureCount := 5, lastFailureTime := some 1000
        , successCount := 0, halfOpenRequestSent := false } 1500).2 = .reject
  ∧ CircuitBreaker.rejectOutcome
        { failureThreshold := 5, resetTimeout := 60000, fallbackConfigured := false
        , state := .opened, failureCount := 5, lastFailureTime := some 1000
        , successCount := 0, halfOpenRequestSent := false } = .typeErrorNullCall
  ∧ RejectOutcome.typeErrorNullCall ≠ RejectOutcome.serviceUnavailableError
  ∧ (CircuitBreaker.callBegin
        { failureThreshold := 5, resetTimeout := 60000, fallbackConfigured := true
        , state := .halfOpen, failureCount := 5, lastFailureTime := some 1000
        , successCount := 0, halfOpenRequestSent := true } 999999).2 = .reject
  ∧ CircuitBreaker.rejectOutcome
        { failureThreshold := 5, resetTimeout := 60000, fallbackConfigured := true
        , state := .halfOpen, failureCount := 5, lastFailureTime := some 1000
        , successCount := 0, halfOpenRequestSent := true } = .fallbackValue := by
  refine ⟨by decide, by decide, by decide, by decide, by decide⟩

/-- C7 counterexample. defaultRetryCondition returns true for an HttpError
with status 600, which is neither 408, nor 429, nor in the range 500 to 599,
so the claimed exact characterization fails at status 600. -/
theorem defaultRetryCondition_600 :
    defaultRetryCondition (.httpError "HTTP 600: Strange" 600 "u") = true
  ∧ ¬ ((600 : Int) = 408 ∨ (600 : Int) = 429 ∨ ((500 : Int) ≤ 600 ∧ (600 : Int) ≤ 599)) := by
  exact ⟨by decide, by decide⟩

/-- C7 amended. defaultRetryCondition(error) returns true exactly when error
is a NetworkError, a TimeoutError, or an HttpError whose status is 408, 429,
or at least 500; for every other error it returns false. -/
theorem defaultRetryCondition_characterization (e : GrabError) :
    defaultRetryCondition e = true ↔
      (match e with
       | .networkError _ _ => True
       | .timeoutError _ _ => True
       | .httpError _ s _ => s = 408 ∨ s = 429 ∨ (500 : Int) ≤ s
       | .genericError _ => False) := by
  cases e with
  | networkError m u => simp [defaultRetryCondition]
  | timeoutError u t => simp [defaultRetryCondition]
  | genericError m => simp [defaultRetryCondition]
  | httpError m s u =>
      simp only [defaultRetryCondition, Bool.or_eq_true, decide_eq_true_eq]
      constructor
      · rintro ((h | h) | h)
        · exact Or.inr (Or.inr h)
        · exact Or.inl h
        · exact Or.inr (Or.inl h)
      · rintro (h | h | h)
        · exact Or.inl (Or.inr h)
        · exact Or.inr h
        · exact Or.inl (Or.inl h)

/-- The retry loop dispatches once per iteration and ends in a throw when
every dispatch fails with an error the retry condition accepts. -/
theorem retryAux_all_fail (dispatch : Nat → GrabError) (cond : GrabError → Bool)
    (fns : List (GrabError → InterceptorResult))
    (h : ∀ a, cond (dispatch a) = true) :
    ∀ (remaining attempt : Nat) (lastError : Option GrabError),
      (retryAux (fun a => .error (dispatch a)) cond fns attempt remaining lastError).2 = remaining
      ∧ (retryAux (fun a => .error (dispatch a)) cond fns attempt remaining lastError).1.isThrown = true := by
  intro remaining
  induction remaining with
  | zero =>
      intro attempt lastError
      cases lastError <;> simp [retryAux, RetryOutcome.isThrown]
  | succ rem ih =>
      intro attempt lastError
      unfold retryAux
      simp only []
      by_cases hfin : rem = 0
      · subst hfin
        simp [h attempt, RetryOutcome.isThrown]
      · have := ih (attempt + 1) (some (dispatch attempt))
        simp only [hfin, h attempt]
        simp [this.1, this.2]

/-- C6. For a request whose every dispatch fails with an error satisfying the
retry condition, executeWithRetry performs exactly n dispatches where n is
the normalized retryAttempts value, which lies in [0, 10], and the outcome is
a throw (the error-interceptor image of the last error for n at least 1, and
the undefined lastError for n = 0, which the source also throws). -/
theorem executeWithRetry_exhaustion (raw : Int) (dispatch : Nat → GrabError)
    (cond : GrabError → Bool) (fns : List (GrabError → InterceptorResult))
    (h : ∀ a, cond (dispatch a) = true) :
    (executeWithRetry (fun a => .error (dispatch a)) cond fns (normalizeRetryAttempts raw)).2
      = normalizeRetryAttempts raw
  ∧ (executeWithRetry (fun a => .error (dispatch a)) cond fns (normalizeRetryAttempts raw)).1.isThrown
      = true
  ∧ normalizeRetryAttempts raw ≤ 10 := by
  have hmain := retryAux_all_fail dispatch cond fns h (normalizeRetryAttempts raw) 1 none
  refine ⟨hmain.1, hmain.2, ?_⟩
  unfold normalizeRetryAttempts
  split
  · omega
  · omega

/-- Witness for C6: a transport that always fails with a NetworkError, the
default retry condition, no error interceptors, and a requested attempts
value of 3 (normalized to 3): exactly 3 dispatches and a thrown outcome. -/
theorem executeWithRetry_exhaustion_witness :
    (executeWithRetry (fun _ => .error (.networkError "boom" "u")) defaultRetryCondition []
        (normalizeRetryAttempts 3)).2 = normalizeRetryAttempts 3
  ∧ (executeWithRetry (fun _ => .error (.networkError "boom" "u")) defaultRetryCondition []
        (normalizeRetryAttempts 3)).1.isThrown = true := by
  have h := executeWithRetry_exhaustion 3 (fun _ => .networkError "boom" "u")
    defaultRetryCondition [] (fun a => rfl)
  exact ⟨h.1, h.2.1⟩

/-- C8. The error-interceptor chain applies the interceptors in registration
order (the chain on fn :: fns runs fn on the current error first, then the
rest of the chain on the resulting error); one step replaces the current
error by a returned non-undefined value, keeps it on a returned undefined,
and adopts a thrown value; and the retry pipeline throws exactly the chain's
final value: when a dispatch error is final or non-retryable, the retry
outcome is the throw of callErrorInterceptors applied to it. -/
theorem errorInterceptorChain_spec (fns : List (GrabError → InterceptorResult))
    (fn : GrabError → InterceptorResult) (e v t : GrabError)
    (cond : GrabError → Bool) (attemptsMinusOne : Nat) :
    callErrorInterceptors [] e = e
  ∧ callErrorInterceptors (fn :: fns) e = callErrorInterceptors fns (interceptorStep e (fn e))
  ∧ interceptorStep e (.ret (some v)) = v
  ∧ interceptorStep e (.ret none) = e
  ∧ interceptorStep e (.thrown t) = t
  ∧ (cond e = false →
      (executeWithRetry (fun _ => .error e) cond fns (attemptsMinusOne + 1)).1
        = .thrown (callErrorInterceptors fns e)) := by
  refine ⟨rfl, rfl, rfl, rfl, rfl, ?_⟩
  intro hc
  unfold executeWithRetry retryAux
  simp [hc]

/-- Witness for C8: a single interceptor that replaces any error with a
genericError; a non-retryable HttpError 404 on the first of 3 attempts is
thrown as that replacement. -/
theorem errorInterceptorChain_spec_witness :
    (executeWithRetry (fun _ => .error (.httpError "HTTP 404: Not Found" 404 "u"))
        defaultRetryCondition [fun _ => .ret (some (.genericError "replaced"))] (2 + 1)).1
      = .thrown (callErrorInterceptors [fun _ => .ret (some (.genericError "replaced"))]
          (.httpError "HTTP 404: Not Found" 404 "u")) := by
  have h := errorInterceptorChain_spec [fun _ => .ret (some (.genericError "replaced"))]
    (fun _ => .ret (some (.genericError "replaced")))
    (.httpError "HTTP 404: Not Found" 404 "u") (.genericError "x") (.genericError "y")
    defaultRetryCondition 2
  exact h.2.2.2.2.2 (by decide)

/-- C9. For any request whose URL resolves, an abort of the in-flight
transport call — the model's abortError covers the internal timeout timer, a
caller-supplied signal firing, and a signal already aborted at entry — is
surfaced as TimeoutError carrying the built (resolved URL plus query) URL and
the effective timeout (config.timeout falling back to the instance timeout);
and every error executeHttpRequest can surface is a TimeoutError,
NetworkError, or HttpError, so no distinct cancellation error type exists. -/
theorem executeHttpRequest_abort_timeout (baseUrl : String) (instanceTimeout : Nat)
    (cfg : RequestConfig) (resolved : String)
    (hres : resolveUrl baseUrl cfg.url = .ok resolved) :
    executeHttpRequest baseUrl instanceTimeout cfg .abortError
      = .error (.timeoutError (buildUrl resolved cfg.params) (effectiveTimeout cfg instanceTimeout))
  ∧ (∀ (tr : TransportResult) (e : GrabError),
      executeHttpRequest baseUrl instanceTimeout cfg tr = .error e →
        (∃ u t, e = .timeoutError u t) ∨ (∃ m u, e = .networkError m u)
        ∨ (∃ m s u, e = .httpError m s u)) := by
  constructor
  · unfold executeHttpRequest
    rw [hres]
  · intro tr e he
    unfold executeHttpRequest at he
    rw [hres] at he
    dsimp only at he
    cases tr with
    | abortError =>
        dsimp only at he
        simp only [Except.error.injEq] at he
        exact Or.inl ⟨_, _, he.symm⟩
    | failure msg =>
        dsimp only at he
        simp only [Except.error.injEq] at he
        exact Or.inr (Or.inl ⟨_, _, he.symm⟩)
    | response r =>
        dsimp only at he
        unfold buildResponse at he
        by_cases h304 : r.status = 304
        · rw [if_pos h304] at he
          exact absurd he (by simp)
        · rw [if_neg h304] at he
          by_cases hok : r.ok
          · rw [if_neg (by simp [hok])] at he
            exact absurd he (by simp)
          · rw [if_pos (by simpa using hok)] at he
            simp only [Except.error.injEq] at he
            exact Or.inr (Or.inr ⟨_, _, _, he.symm⟩)

/-- Witness for C9: base URL https://api.test, relative URL /x, no params, no
per-request timeout, instance timeout 30000: an abort surfaces as
TimeoutError("https://api.test/x", 30000). -/
theorem executeHttpRequest_abort_timeout_witness :
    executeHttpRequest "https://api.test" 30000
        { url := "/x", params := [], headers := [], timeout := none } .abortError
      = .error (.timeoutError
          (buildUrl "https://api.test/x" [])
          (effectiveTimeout { url := "/x", params := [], headers := [], timeout := none } 30000)) := by
  exact (executeHttpRequest_abort_timeout "https://api.test" 30000
    { url := "/x", params := [], headers := [], timeout := none } "https://api.test/x"
    (by rfl)).1

/-- C10. When a 304 arrives on the cacheable path and no entry exists under
the fingerprint, the built 304 descriptor itself — ok, with a null body — is
stored as a new entry under the fingerprint with the ETag read from the
response headers and expiry now + ttl, and is returned to the caller; a
subsequent get within the TTL serves that descriptor from cache (fromCache
true, data still null). -/
theorem cacheable_304_stores_descriptor (c : HttpCache) (key : String) (raw : RawResponse)
    (origUrl : String) (now later : Nat) (resp : Resp)
    (habs : assocGet c.cache key = none)
    (h304 : raw.status = 304)
    (hbuild : buildResponse raw origUrl = .ok resp) :
    resp.ok = true ∧ resp.data = none
  ∧ (cacheableSettle c key resp now).1 = resp
  ∧ assocGet ((cacheableSettle c key resp now).2).cache key
      = some { data := resp, expires := now + c.ttl, etag := findHeader raw.headers "etag" }
  ∧ (later ≤ now + c.ttl →
      (((cacheableSettle c key resp now).2).get key later).1 = some { resp with fromCache := true }) := by
  unfold buildResponse at hbuild
  rw [if_pos h304] at hbuild
  simp only [Except.ok.injEq] at hbuild
  subst hbuild
  have hset := set_lookup c key
    { ok := true, status := 304, statusText := "Not Modified", headers := raw.headers
    , url := raw.url, data := none, etag := none, fromCache := false }
    none (findHeader raw.headers "etag") now
  have hsettle : cacheableSettle c key
      { ok := true, status := 304, statusText := "Not Modified", headers := raw.headers
      , url := raw.url, data := none, etag := none, fromCache := false } now
      = ({ ok := true, status := 304, statusText := "Not Modified", headers := raw.headers
         , url := raw.url, data := none, etag := none, fromCache := false }
        , { (c.set key
              { ok := true, status := 304, statusText := "Not Modified", headers := raw.headers
              , url := raw.url, data := none, etag := none, fromCache := false }
              none (findHeader raw.headers "etag") now) with
            pending := eraseKey (c.set key
              { ok := true, status := 304, statusText := "Not Modified", headers := raw.headers
              , url := raw.url, data := none, etag := none, fromCache := false }
              none (findHeader raw.headers "etag") now).pending key }) := by
    unfold cacheableSettle
    simp [refresh_absent c key now habs, get_absent c key now habs]
  refine ⟨rfl, rfl, ?_, ?_, ?_⟩
  · rw [hsettle]
  · rw [hsettle]
    exact hset
  · intro hle
    rw [hsettle]
    unfold HttpCache.get
    dsimp only
    rw [hset]
    dsimp only
    have hnot : ¬ now + c.effTtl none < later := by
      simp only [HttpCache.effTtl]
      omega
    rw [if_neg hnot]

/-- Witness for C10: a fresh default cache, a 304 raw response carrying an
etag header, settled at time 700 and read back at time 800. -/
theorem cacheable_304_stores_descriptor_witness :
    assocGet ((cacheableSettle (HttpCache.init 300000 100 AUTH_HEADERS) "fp"
        { ok := true, status := 304, statusText := "Not Modified"
        , headers := [("etag", "\"e1\"")], url := "u", data := none, etag := none
        , fromCache := false } 700).2).cache "fp"
      = some { data := { ok := true, status := 304, statusText := "Not Modified"
                       , headers := [("etag", "\"e1\"")], url := "u", data := none, etag := none
                       , fromCache := false }
             , expires := 700 + (HttpCache.init 300000 100 AUTH_HEADERS).ttl
             , etag := findHeader [("etag", "\"e1\"")] "etag" }
  ∧ (((cacheableSettle (HttpCache.init 300000 100 AUTH_HEADERS) "fp"
        { ok := true, status := 304, statusText := "Not Modified"
        , headers := [("etag", "\"e1\"")], url := "u", data := none, etag := none
        , fromCache := false } 700).2).get "fp" 800).1
      = some { ok := true, status := 304, statusText := "Not Modified"
             , headers := [("etag", "\"e1\"")], url := "u", data := none, etag := none
             , fromCache := true } := by
  have h := cacheable_304_stores_descriptor (HttpCache.init 300000 100 AUTH_HEADERS) "fp"
    { ok := true, status := 304, statusText := "Not Modified"
    , headers := [("etag", "\"e1\"")], url := "u", body := none } "u" 700 800
    { ok := true, status := 304, statusText := "Not Modified"
    , headers := [("etag", "\"e1\"")], url := "u", data := none, etag := none
    , fromCache := false } rfl rfl rfl
  exact ⟨h.2.2.2.1, h.2.2.2.2 (by decide)⟩

/-- Arrivals on a fingerprint whose in-flight entry is registered all join
that entry and leave the pipeline state untouched. -/
theorem arrivals_all_joined (key : String) (now pid : Nat) :
    ∀ (k : Nat) (g : PipelineState),
      assocGet g.cache.pending key = some pid →
      arrivals g key now k = (List.replicate k pid, g) := by
  intro k
  induction k with
  | zero => intro g hp; rfl
  | succ k ih =>
      intro g hp
      have hstart : cacheableStart g key now = (.joined pid, g) := by
        unfold cacheableStart
        rw [hp]
      unfold arrivals
      rw [hstart]
      dsimp only
      rw [ih g hp]
      rfl

/-- C3. (a) When an in-flight entry is registered for the fingerprint, the
synchronous prefix of cacheableRequest returns that entry and changes nothing
— no cache access, no breaker call, no retry loop, no transport dispatch.
(b) Hence k+1 back-to-back arrivals for one fingerprint with no fresh cache
entry all await the one promise registered by the first arrival, and the
dispatch count rises by exactly one. (c) One dispatched pipeline whose
transport succeeds performs exactly one transport dispatch (the retry loop
returns on the first attempt), so the k+1 callers cost one dispatch in total,
and, holding the same promise, observe its one outcome — the same response on
success and the same error on failure. -/
theorem dedup_single_dispatch (g : PipelineState) (key : String) (now k : Nat)
    (hp : assocGet g.cache.pending key = none)
    (hc : assocGet g.cache.cache key = none) :
    (∀ (pid0 : Nat) (g0 : PipelineState), assocGet g0.cache.pending key = some pid0 →
       cacheableStart g0 key now = (.joined pid0, g0))
  ∧ (arrivals g key now (k + 1)).1 = List.replicate (k + 1) g.nextPromiseId
  ∧ (arrivals g key now (k + 1)).2.dispatchCount = g.dispatchCount + 1
  ∧ (∀ (r : Resp) (cond : GrabError → Bool) (fns : List (GrabError → InterceptorResult)) (n : Nat),
       (executeWithRetry (fun _ => .ok r) cond fns (n + 1)).1 = .success r
       ∧ (executeWithRetry (fun _ => .ok r) cond fns (n + 1)).2 = 1) := by
  have hjoin : ∀ (pid0 : Nat) (g0 : PipelineState), assocGet g0.cache.pending key = some pid0 →
      cacheableStart g0 key now = (.joined pid0, g0) := by
    intro pid0 g0 h0
    unfold cacheableStart
    rw [h0]
  have hstart : cacheableStart g key now
      = (.dispatched g.nextPromiseId
        , { cache := { g.cache with pending := g.cache.pending ++ [(key, g.nextPromiseId)] }
          , dispatchCount := g.dispatchCount + 1
          , nextPromiseId := g.nextPromiseId + 1 }) := by
    unfold cacheableStart
    rw [hp]
    dsimp only
    rw [get_absent g.cache key now hc]
  have hpend1 : assocGet (g.cache.pending ++ [(key, g.nextPromiseId)]) key
      = some g.nextPromiseId := by
    rw [assocGet_append_of_none _ _ _ hp, assocGet_cons, if_pos rfl]
  refine ⟨hjoin, ?_, ?_, ?_⟩
  · unfold arrivals
    rw [hstart]
    dsimp only
    rw [arrivals_all_joined key now g.nextPromiseId k _ hpend1]
    simp [List.replicate_succ]
  · unfold arrivals
    rw [hstart]
    dsimp only
    rw [arrivals_all_joined key now g.nextPromiseId k _ hpend1]
  · intro r cond fns n
    exact ⟨rfl, rfl⟩

/-- Witness for C3: a fresh pipeline state, fingerprint fp, three arrivals:
all three callers hold promise id 7 and the dispatch count rises from 0 to 1. -/
theorem dedup_single_dispatch_witness :
    (arrivals { cache := HttpCache.init 300000 100 AUTH_HEADERS, dispatchCount := 0
              , nextPromiseId := 7 } "fp" 50 (2 + 1)).1 = List.replicate (2 + 1) 7
  ∧ (arrivals { cache := HttpCache.init 300000 100 AUTH_HEADERS, dispatchCount := 0
              , nextPromiseId := 7 } "fp" 50 (2 + 1)).2.dispatchCount = 0 + 1 := by
  have h := dedup_single_dispatch
    { cache := HttpCache.init 300000 100 AUTH_HEADERS, dispatchCount := 0, nextPromiseId := 7 }
    "fp" 50 2 rfl rfl
  exact ⟨h.2.1, h.2.2.1⟩

/-- One callOnce step preserves the breaker invariant that an open or
half-open breaker has accumulated at least failureThreshold failures. -/
theorem cb_inv_step (s : CircuitBreaker) (now : Nat) (ok : Bool)
    (h : s.state = .opened ∨ s.state = .halfOpen → s.failureThreshold ≤ s.failureCount) :
    (s.callOnce now ok).state = .opened ∨ (s.callOnce now ok).state = .halfOpen →
      (s.callOnce now ok).failureThreshold ≤ (s.callOnce now ok).failureCount := by
  obtain ⟨thr, rt, fb, st, fc, lft, sc, sent⟩ := s
  cases st <;> cases ok <;>
    simp_all [CircuitBreaker.callOnce, CircuitBreaker.callBegin, CircuitBreaker.callSettle,
      CircuitBreaker.onSuccess, CircuitBreaker.onFailure] <;>
    (repeat' split_ifs <;> simp_all) <;> omega

/-- Sequentially reachable breaker states satisfy the threshold invariant. -/
theorem cb_inv (thr rt : Nat) (fb : Bool) (s : CircuitBreaker)
    (hr : CBReachable thr rt fb s) :
    s.state = .opened ∨ s.state = .halfOpen → s.failureThreshold ≤ s.failureCount := by
  induction hr with
  | init =>
      intro hst
      rcases hst with h | h <;> simp [CircuitBreaker.init] at h
  | step s now ok hr ih => exact cb_inv_step s now ok ih

/-- A failing complete call on a closed breaker increments the failure count,
records the failure time, and opens the breaker exactly when the new count
reaches the threshold. -/
theorem callOnce_closed_fail (s : CircuitBreaker) (now : Nat) (h : s.state = .closed) :
    s.callOnce now false
      = if s.failureThreshold ≤ s.failureCount + 1
        then { s with failureCount := s.failureCount + 1, lastFailureTime := some now, state := .opened }
        else { s with failureCount := s.failureCount + 1, lastFailureTime := some now } := by
  obtain ⟨thr, rt, fb, st, fc, lft, sc, sent⟩ := s
  cases st <;> simp_all [CircuitBreaker.callOnce, CircuitBreaker.callBegin,
    CircuitBreaker.callSettle, CircuitBreaker.onFailure]

/-- A failure streak from a closed breaker whose length brings the count
exactly to the threshold ends with the breaker open. -/
theorem failCalls_opens (thr : Nat) :
    ∀ (ts : List Nat) (s : CircuitBreaker),
      s.failureThreshold = thr → s.state = .closed →
      s.failureCount + ts.length = thr → ts ≠ [] →
      (failCalls s ts).state = .opened := by
  intro ts
  induction ts with
  | nil =>
      intro s _ _ _ hne
      exact absurd rfl hne
  | cons t rest ih =>
      intro s hthr hst hsum _
      have hstep : failCalls s (t :: rest) = failCalls (s.callOnce t false) rest := by
        simp [failCalls]
      rw [hstep, callOnce_closed_fail s t hst]
      cases rest with
      | nil =>
          have hcond : s.failureThreshold ≤ s.failureCount + 1 := by
            simp only [List.length_cons, List.length_nil] at hsum
            omega
          rw [if_pos hcond]
          simp [failCalls]
      | cons t2 rest2 =>
          have hcond : ¬ s.failureThreshold ≤ s.failureCount + 1 := by
            simp only [List.length_cons] at hsum
            omega
          rw [if_neg hcond]
          apply ih
          · exact hthr
          · exact hst
          · show s.failureCount + 1 + (t2 :: rest2).length = thr
            simp only [List.length_cons] at hsum ⊢
            omega
          · simp

/-- A dispatching callBegin whose post-state is half-open came from an open
or half-open breaker and kept its failure count and threshold. -/
theorem begin_dispatch_halfOpen (s s' : CircuitBreaker) (now : Nat)
    (hb : s.callBegin now = (s', .dispatch)) (hs' : s'.state = .halfOpen) :
    (s.state = .opened ∨ s.state = .halfOpen)
    ∧ s'.failureCount = s.failureCount
    ∧ s'.failureThreshold = s.failureThreshold := by
  obtain ⟨thr, rt, fb, st, fc, lft, sc, sent⟩ := s
  cases st with
  | closed =>
      simp [CircuitBreaker.callBegin] at hb
      rw [← hb] at hs'
      simp at hs'
  | opened =>
      by_cases hres : CircuitBreaker.shouldReset ⟨thr, rt, fb, .opened, fc, lft, sc, sent⟩ now
      · simp [CircuitBreaker.callBegin, hres] at hb
        rw [← hb]
        exact ⟨Or.inl rfl, rfl, rfl⟩
      · simp [CircuitBreaker.callBegin, hres] at hb
  | halfOpen =>
      cases hsent : sent with
      | true =>
          subst hsent
          simp [CircuitBreaker.callBegin] at hb
      | false =>
          subst hsent
          simp [CircuitBreaker.callBegin] at hb
          rw [← hb]
          exact ⟨Or.inr rfl, rfl, rfl⟩

/-- onFailure on a breaker already at or past its threshold opens it and
records the failure time. -/
theorem onFailure_at_threshold (cb : CircuitBreaker) (now : Nat)
    (h : cb.failureThreshold ≤ cb.failureCount) :
    (cb.onFailure now).state = .opened ∧ (cb.onFailure now).lastFailureTime = some now := by
  unfold CircuitBreaker.onFailure
  have hge : cb.failureCount + 1 ≥ cb.failureThreshold := by omega
  simp [hge]

/-- C4. (a) From the constructor state, a streak of failureThreshold failing
calls (threshold at least 1, arbitrary call times) leaves the breaker open.
(b) A probe success while half-open — the settle of a dispatched thunk on a
half-open breaker — closes the breaker and resets the consecutive-failure
count to 0. (c) From any sequentially reachable breaker state, when a call is
admitted as the half-open probe (callBegin dispatches with the gated state
half-open), a probe failure returns the state to open and records the failure
time: the half-open state is only reached with the failure count already at
the threshold, so onFailure re-opens. -/
theorem circuitBreaker_state_machine (thr rt : Nat) (fb : Bool) :
    (∀ ts : List Nat, 1 ≤ thr → ts.length = thr →
      (failCalls (CircuitBreaker.init thr rt fb) ts).state = .opened)
  ∧ (∀ (s : CircuitBreaker) (now : Nat), s.state = .halfOpen →
      (s.callSettle true now).state = .closed ∧ (s.callSettle true now).failureCount = 0)
  ∧ (∀ (s s' : CircuitBreaker) (now now' : Nat), CBReachable thr rt fb s →
      s.callBegin now = (s', .dispatch) → s'.state = .halfOpen →
      (s'.callSettle false now').state = .opened
      ∧ (s'.callSettle false now').lastFailureTime = some now') := by
  refine ⟨?_, ?_, ?_⟩
  · intro ts hthr hlen
    apply failCalls_opens thr ts (CircuitBreaker.init thr rt fb) rfl rfl
    · simpa [CircuitBreaker.init] using hlen
    · intro hnil
      rw [hnil] at hlen
      simp at hlen
      omega
  · intro s now hs
    unfold CircuitBreaker.callSettle CircuitBreaker.onSuccess
    simp [hs]
  · intro s s' now now' hreach hbegin hs'
    obtain ⟨hsrc, hcount, hthr⟩ := begin_dispatch_halfOpen s s' now hbegin hs'
    have hinv : s.failureThreshold ≤ s.failureCount := cb_inv thr rt fb s hreach hsrc
    have hth : s'.failureThreshold ≤ s'.failureCount := by omega
    have hsettle : s'.callSettle false now' = s'.onFailure now' := rfl
    rw [hsettle]
    exact onFailure_at_threshold s' now' hth

/-- Witness for C4: threshold 2, reset timeout 1000; two failing calls at
times 10 and 20 open the breaker; a half-open probe success closes it with
count 0; the dispatched probe at time 5000 (reset elapsed) failing at time
5000 re-opens the breaker with last failure time 5000. -/
theorem circuitBreaker_state_machine_witness :
    (failCalls (CircuitBreaker.init 2 1000 false) [10, 20]).state = .opened
  ∧ (CircuitBreaker.callSettle
      { failureThreshold := 2, resetTimeout := 1000, fallbackConfigured := false
      , state := .halfOpen, failureCount := 2, lastFailureTime := some 20
      , successCount := 0, halfOpenRequestSent := true } true 5000).state = .closed
  ∧ (CircuitBreaker.callSettle
      { failureThreshold := 2, resetTimeout := 1000, fallbackConfigured := false
      , state := .halfOpen, failureCount := 2, lastFailureTime := some 20
      , successCount := 0, halfOpenRequestSent := true } false 5000).state = .opened
  ∧ (CircuitBreaker.callSettle
      { failureThreshold := 2, resetTimeout := 1000, fallbackConfigured := false
      , state := .halfOpen, failureCount := 2, lastFailureTime := some 20
      , successCount := 0, halfOpenRequestSent := true } false 5000).lastFailureTime
      = some 5000 := by
  obtain ⟨h1, h2, h3⟩ := circuitBreaker_state_machine 2 1000 false
  have hreach : CBReachable 2 1000 false
      (((CircuitBreaker.init 2 1000 false).callOnce 10 false).callOnce 20 false) :=
    CBReachable.step _ 20 false (CBReachable.step _ 10 false CBReachable.init)
  have hprobe := h3 (((CircuitBreaker.init 2 1000 false).callOnce 10 false).callOnce 20 false)
    { failureThreshold := 2, resetTimeout := 1000, fallbackConfigured := false
    , state := .halfOpen, failureCount := 2, lastFailureTime := some 20
    , successCount := 0, halfOpenRequestSent := true } 5000 5000 hreach (by decide) rfl
  refine ⟨h1 [10, 20] (by decide) (by decide), (h2 _ 5000 rfl).1, hprobe.1, hprobe.2⟩
